import Mathlib

/-!
Shallow embedding of the `dls` download engine.

The repository contains two generations of the engine:
* a legacy prototype (`package main`): `HttpDownloadState`, an `int`-valued
  `Status` with aliased values, and a reader stack
  (`FixedLengthReader` / `CallbackReader` / `PauseableReader`) driven by
  `io.Copy`;
* the `downloads` package: a `string`-valued `Status`, `HttpDownloadFile`
  with its own read loop, `HttpDownloadTask` sequencing files, and the
  `Content-Range` parser `parseContentRange`.

Every definition below is translated from the Go source.  Machine-level
concerns that no claim touches (file handles, the rate limiter's clock,
`uuid`, display names from `Content-Disposition`/URL parsing) are noted in
the doc comment of the definition that omits them.
-/

/-- Go `error` values that the embedded code creates or compares with
`errors.Is`.  Distinct constructors model distinct sentinel values:
`io.EOF`, `io.ErrUnexpectedEOF`, the legacy `StopReadingErr`, the
`fmt.Errorf("http download failed with status code %d", ...)` family, and
the `errors.New("invalid content-range format")` parse error. -/
inductive GoError
  | eof
  | unexpectedEOF
  | stopReading
  | httpStatus (code : Int)
  | invalidContentRange
  | other (msg : String)
deriving DecidableEq, Repr

/-- The `downloads` package status enumeration (`type Status string`).
`Status.val` below gives each state its underlying Go string value. -/
inductive Status
  | queued
  | paused
  | stopped
  | started
  | completed
  | failed
deriving DecidableEq, Repr

/-- Underlying Go `string` value of each `Status` constant
(`StatusQueued Status = "queued"`, ...). -/
def Status.val : Status → String
  | .queued => "queued"
  | .paused => "paused"
  | .stopped => "stopped"
  | .started => "started"
  | .completed => "completed"
  | .failed => "failed"

/-- Result of one Go `io.Reader.Read` call: the byte count and the error
(`none` models a nil error).  The bytes themselves are irrelevant to every
claim, so only the count is kept. -/
structure ReadRes where
  n : Int
  err : Option GoError
deriving DecidableEq, Repr

/-- `FixedLengthReader` (identical in the legacy prototype and in the
`downloads` package): the remaining-length field. -/
structure FixedLengthReader where
  length : Int
deriving DecidableEq, Repr

/-- `FixedLengthReader.Read`: `res` is what the underlying reader returned.
Mirrors the Go body: cap `n` at `length`, decrement `length`, turn an
underlying `io.EOF` with bytes still expected into `io.ErrUnexpectedEOF`,
and report `io.EOF` once `length <= 0`. -/
def FixedLengthReader.Read (r : FixedLengthReader) (res : ReadRes) :
    ReadRes × FixedLengthReader :=
  let n := if res.n > r.length then r.length else res.n
  let len := r.length - n
  let err1 := if res.err = some GoError.eof ∧ len > 0 then some GoError.unexpectedEOF
              else res.err
  let err2 := if len ≤ 0 then some GoError.eof else err1
  (⟨n, err2⟩, ⟨len⟩)

/-- Total byte count delivered by a `FixedLengthReader` across a sequence
of underlying read results (the sum of the `n` it returns). -/
def flrDelivered (len : Int) : List ReadRes → Int
  | [] => 0
  | res :: rest =>
    let out := FixedLengthReader.Read ⟨len⟩ res
    out.1.n + flrDelivered out.2.length rest

/-- `HttpDownloadFile` of the `downloads` package.  Kept fields are the
ones some claim depends on: byte counters, error, status, resumability.
Omitted: `Id`/`Name`/`Path`/`URL` (identity and naming), `task`
(back-reference), `rateLimit`/`rateLimiter` (timing only), `partSize`
(written, never read), `file` (OS handle), and the unused `partial` flag. -/
structure HttpDownloadFile where
  Downloaded : Int
  Total : Int
  err : Option GoError
  status : Status
  resumable : Bool
deriving DecidableEq, Repr

/-- `HttpDownloadFile.setError`: store the error; a non-nil error also sets
status `StatusFailed`; a nil error leaves the status unchanged. -/
def HttpDownloadFile.setError (f : HttpDownloadFile) (e : Option GoError) :
    HttpDownloadFile :=
  let f1 := { f with err := e }
  if e.isSome then { f1 with status := Status.failed } else f1

/-- The fields of an `*http.Response` the `downloads` package reads.
`ContentRangeHeader`/`AcceptRangesHeader` model
`resp.Header.Get("Content-Range")` / `resp.Header.Get("Accept-Ranges")`
(`""` when absent). -/
structure HttpResponse where
  StatusCode : Int
  ContentLength : Int
  ContentRangeHeader : String
  AcceptRangesHeader : String
deriving DecidableEq, Repr

/-- Named submatches of `contentRangeRe` as Go's
`FindStringSubmatch` + `reGetNamedGroups` expose them.  Go stores an entry
for every named group, with `""` for a group that did not participate in
the match, so all three fields are plain strings. -/
structure ContentRangeGroups where
  range_start : String
  range_end : String
  size : String
deriving DecidableEq, Repr

/-- Strip a literal character sequence from the front of a list. -/
def stripLit : List Char → List Char → Option (List Char)
  | [], cs => some cs
  | _ :: _, [] => none
  | p :: ps, c :: cs => if c = p then stripLit ps cs else none

/-- The optional trailing group `(?:/(\d+)|/\*$)?` of `contentRangeRe`:
the `size` submatch.  A `/` followed by at least one digit captures the
digits; `/\*` at end of input, or anything else, leaves the group
unmatched (`""`) — either way the submatch string is empty. -/
def sizeGroup (cs : List Char) : String :=
  match cs with
  | '/' :: rest =>
    let ds := rest.takeWhile Char.isDigit
    if ds.isEmpty then "" else String.mk ds
  | _ => ""

/-- Matching of
`contentRangeRe = ^bytes (?:(?P<range_start>\d+)?-(?P<range_end>\d+)?|\*)(?:/(?P<size>\d+)|/\*$)?`
against a string, with Go's leftmost-first (prefer-earlier-alternative,
greedy) submatch semantics.  The pattern is anchored at the start only, so
trailing text after the match is ignored.  The first alternative requires
an optional maximal digit run followed by `-` (a digit run not followed by
`-` cannot match: shortening the run or dropping the optional group puts a
digit where `-` must be); otherwise the `\*` alternative requires `*`. -/
def contentRangeMatch (s : String) : Option ContentRangeGroups :=
  match stripLit "bytes ".toList s.toList with
  | none => none
  | some cs =>
    let ds := cs.takeWhile Char.isDigit
    let rest := cs.dropWhile Char.isDigit
    match rest with
    | '-' :: rest2 =>
      let de := rest2.takeWhile Char.isDigit
      let rest3 := rest2.dropWhile Char.isDigit
      some { range_start := String.mk ds, range_end := String.mk de,
             size := sizeGroup rest3 }
    | _ =>
      match ds, cs with
      | [], '*' :: rest2 =>
        some { range_start := "", range_end := "", size := sizeGroup rest2 }
      | _, _ => none

/-- `strconv.Atoi` with the error discarded, as `parseContentRange` uses it
(`result.rangeStart, _ = strconv.Atoi(rangeStart)`): the decimal value of a
non-empty digit string — the only non-empty strings the submatch groups can
hold — and otherwise `0`, the value `Atoi` leaves next to its error (in
particular on `""` for an unmatched group). -/
def atoiOrZero (s : String) : Int :=
  if s.data.isEmpty ∨ ¬ s.data.all Char.isDigit then 0
  else s.data.foldl (fun acc c => acc * 10 + ((c.toNat : Int) - 48)) 0

/-- `parseContentRangeResult` of the `downloads` package. -/
structure ParseContentRangeResult where
  rangeStart : Int
  rangeEnd : Int
  size : Int
deriving DecidableEq, Repr

/-- `parseContentRange`.  No regex match yields the
`"invalid content-range format"` error.  On a match, the code looks each
named group up in the `reGetNamedGroups` map with a comma-ok test; since
that map holds an entry for every named group (unmatched groups map to
`""`), the `ok` branch always runs and the `else` branches assigning `-1`
to `rangeEnd`/`size` are unreachable: an unmatched group goes through
`strconv.Atoi("")`, whose error is discarded, leaving the field `0`. -/
def parseContentRange (s : String) : Except GoError ParseContentRangeResult :=
  match contentRangeMatch s with
  | none => Except.error GoError.invalidContentRange
  | some g =>
    Except.ok { rangeStart := atoiOrZero g.range_start,
                rangeEnd := atoiOrZero g.range_end,
                size := atoiOrZero g.size }

/-- `HttpDownloadFile.parsePartialResponse`: require status 206
(`http.StatusPartialContent`), then parse the `Content-Range` header and
store its `size` as the file's `Total`. -/
def HttpDownloadFile.parsePartialResponse (f : HttpDownloadFile)
    (resp : HttpResponse) : HttpDownloadFile × Option GoError :=
  if resp.StatusCode ≠ 206 then
    (f, some (GoError.httpStatus resp.StatusCode))
  else
    match parseContentRange resp.ContentRangeHeader with
    | Except.error e => (f, some e)
    | Except.ok pr => ({ f with Total := pr.size }, none)

/-- `HttpDownloadFile.parseResponse`.  The Go test is
`if resp.StatusCode != http.StatusPartialContent { return f.parsePartialResponse(resp) }`,
so every non-206 response is delegated to `parsePartialResponse` (which
then rejects it), and a 206 response takes the full-response branch below,
which resets `Downloaded` to 0.  Display-name resolution from
`Content-Disposition`/`mime.ParseMediaType`/`url.Parse` only writes the
`Name` field, which no claim mentions, and is omitted here (the inputs used
below keep `f.Path` nonempty in spirit, so the omitted `url.Parse` error
path is not exercised); `partSize` is omitted because nothing reads it. -/
def HttpDownloadFile.parseResponse (f : HttpDownloadFile)
    (resp : HttpResponse) : HttpDownloadFile × Option GoError :=
  if resp.StatusCode ≠ 206 then
    f.parsePartialResponse resp
  else if resp.StatusCode < 200 ∨ 300 ≤ resp.StatusCode then
    (f, some (GoError.httpStatus resp.StatusCode))
  else
    let f1 := if resp.AcceptRangesHeader = "bytes" then { f with resumable := true }
              else f
    ({ f1 with Total := resp.ContentLength, Downloaded := 0 }, none)

/-- `HttpDownloadFile.startDownloading`, synchronous part: parse the
response to the plain GET, then set status `StatusStarted` (the spawned
`startDownload` goroutine is modelled separately by
`HttpDownloadFile.startDownload`).  The request itself and `makeFile`
(open + seek of the destination) are modelled as succeeding — their
failures only add further error returns of the same shape as the one from
`parseResponse`. -/
def HttpDownloadFile.startDownloading (f : HttpDownloadFile)
    (resp : HttpResponse) : HttpDownloadFile × Option GoError :=
  match f.parseResponse resp with
  | (f1, some e) => (f1, some e)
  | (f1, none) => ({ f1 with status := Status.started }, none)

/-- Offset carried by the `Range: bytes=%d-` header that
`makePartialRequest` builds: the file's current `Downloaded` value. -/
def HttpDownloadFile.rangeRequestOffset (f : HttpDownloadFile) : Int :=
  f.Downloaded

/-- `HttpDownloadFile.resumeDownloading`: fall back to `startDownloading`
unless the file is resumable with `Downloaded > 0`; otherwise issue the
Range GET (`makePartialRequest`, offset `rangeRequestOffset`), parse the
response with the same `parseResponse`, and set status `StatusStarted`. -/
def HttpDownloadFile.resumeDownloading (f : HttpDownloadFile)
    (resp : HttpResponse) : HttpDownloadFile × Option GoError :=
  if ¬f.resumable ∨ f.Downloaded = 0 then
    f.startDownloading resp
  else
    match f.parseResponse resp with
    | (f1, some e) => (f1, some e)
    | (f1, none) => ({ f1 with status := Status.started }, none)

/-- Read loop of `HttpDownloadFile.download`: while status is
`StatusStarted`, read through the `FixedLengthReader`; on `io.EOF` set
status `StatusCompleted` and return nil (the `n` bytes accompanying the
EOF result are neither written nor added to `Downloaded` — the loop
returns before reaching those statements); on another error return it;
otherwise write the chunk (file writes modelled as succeeding) and add
`n` to `Downloaded`.  `body` is the sequence of results the underlying
response body produces for the reads actually performed; the
`RateLimitedIO` stage passes `n` and a nil error through unchanged and
only adds a timing wait, so it is omitted.  The `onFileCompleted`
callback into the task is modelled at the task level. -/
def HttpDownloadFile.downloadLoop (f : HttpDownloadFile)
    (r : FixedLengthReader) : List ReadRes → HttpDownloadFile × Option GoError
  | [] => (f, none)
  | res :: rest =>
    if f.status = Status.started then
      let out := r.Read res
      if out.1.err = some GoError.eof then
        ({ f with status := Status.completed }, none)
      else if out.1.err.isSome then
        (f, out.1.err)
      else
        HttpDownloadFile.downloadLoop
          { f with Downloaded := f.Downloaded + out.1.n } out.2 rest
    else (f, none)

/-- `HttpDownloadFile.startDownload` (the goroutine body): run `download`,
whose reader chain starts with `NewFixedLengthReader(resp.Body,
f.Total-f.Downloaded)`, then pass its return value to `setError`.  The
`recover` wrapper only matters when the loop panics, which the model's
total functions cannot. -/
def HttpDownloadFile.startDownload (f : HttpDownloadFile)
    (body : List ReadRes) : HttpDownloadFile :=
  let out := f.downloadLoop ⟨f.Total - f.Downloaded⟩ body
  out.1.setError out.2

/-- `HttpDownloadTask` of the `downloads` package.  `ctx`, `rateLimit`,
`Id`, `Name` and the aggregate counters are omitted: no claim reads them. -/
structure HttpDownloadTask where
  Files : List HttpDownloadFile
  Status : Status
  Error : Option GoError
  Path : String
deriving DecidableEq, Repr

/-- Scan of `HttpDownloadTask._start`'s loop body: find the first file
whose status is not `StatusCompleted` and call `resumeDownloading` on it
when the task is `StatusPaused`, `startDownloading` otherwise.  `none`
means every file was already completed; otherwise the updated file list
and the error the call returned. -/
def startFirstPending (paused : Bool) (resp : HttpResponse) :
    List HttpDownloadFile → Option (List HttpDownloadFile × Option GoError)
  | [] => none
  | f :: fs =>
    if f.status ≠ Status.completed then
      let out := if paused then f.resumeDownloading resp
                 else f.startDownloading resp
      some (out.1 :: fs, out.2)
    else
      match startFirstPending paused resp fs with
      | none => none
      | some (fs1, e) => some (f :: fs1, e)

/-- `HttpDownloadTask._start`: on an error from the started file the task
stores the error and sets its status to `StatusCompleted` (this is the
literal code: `dt.Status = StatusCompleted; dt.Error = err`); on success
it becomes `StatusStarted`; when no non-completed file remains it becomes
`StatusCompleted`. -/
def HttpDownloadTask.startScan (dt : HttpDownloadTask) (resp : HttpResponse) :
    HttpDownloadTask :=
  match startFirstPending (dt.Status = Status.paused) resp dt.Files with
  | none => { dt with Status := Status.completed }
  | some (fs, some e) =>
    { dt with Files := fs, Status := Status.completed, Error := some e }
  | some (fs, none) => { dt with Files := fs, Status := Status.started }

/-- `HttpDownloadTask.Start`: run `_start` unless the task is already
`StatusStarted` or `StatusCompleted`. -/
def HttpDownloadTask.Start (dt : HttpDownloadTask) (resp : HttpResponse) :
    HttpDownloadTask :=
  if dt.Status ≠ Status.started ∧ dt.Status ≠ Status.completed then
    dt.startScan resp
  else dt

/-- Go return types occurring in the two `GetPath` signatures. -/
inductive GoType
  | goString
  | goErrorType
deriving DecidableEq, Repr

/-- Declared return type of `GetPath` in the `DownloadTask` interface:
`GetPath() string`. -/
def DownloadTask.getPathReturnType : GoType := GoType.goString

/-- Declared return type of the method `func (dt *HttpDownloadTask)
GetPath() error`. -/
def HttpDownloadTask.getPathReturnType : GoType := GoType.goErrorType

/-- `HttpDownloadTask.GetPath`: its body is `return dt.Error`. -/
def HttpDownloadTask.GetPath (dt : HttpDownloadTask) : Option GoError :=
  dt.Error

/-! The legacy prototype (`package main`). -/

namespace Legacy

/-- Legacy `Status int` values.  `Paused` and `Completed` share the value
`2` in the source (`var (... Paused Status = 2; Completed Status = 2 ...)`). -/
def Waiting : Int := 0

/-- Legacy `Started Status = 1`. -/
def Started : Int := 1

/-- Legacy `Paused Status = 2`. -/
def Paused : Int := 2

/-- Legacy `Completed Status = 2` — the same underlying value as `Paused`. -/
def Completed : Int := 2

/-- Legacy `Error Status = 3`. -/
def ErrorSt : Int := 3

/-- Legacy `HttpDownloadState`, restricted to the fields the legacy claims
read: status, error, sizes, the shared `left`/`downloaded` counters the
progress callback mutates, and the cooperative pause flag.  `url`,
`fileName`, the OS file handle and the reader-stack pointers are omitted. -/
structure HttpDownloadState where
  status : Int
  err : Option GoError
  size : Int
  downloaded : Int
  left : Int
  paused : Bool
deriving DecidableEq, Repr

/-- Legacy `setError`: a nil error sets status `Completed`, a non-nil one
sets status `Error`. -/
def setError (s : HttpDownloadState) (e : Option GoError) : HttpDownloadState :=
  if e.isSome then { s with err := e, status := ErrorSt }
  else { s with err := e, status := Completed }

/-- Legacy `Stop`: set status `Waiting`. -/
def Stop (s : HttpDownloadState) : HttpDownloadState :=
  { s with status := Waiting }

/-- One unpaused read through the legacy reader stack built by
`NewReaderStack` (`FixedLengthReader`, then `RateLimitedIO`, then
`CallbackReader`): `res` is the response body's result.  The
`RateLimitedIO` stage forwards `n` and a nil error unchanged.  The
`CallbackReader` forwards any error without running the callback;
otherwise the callback decrements `left`, increments `downloaded` and
returns `status != Waiting`; a `false` result turns the read into
`(0, StopReadingErr)` (= `GoError.stopReading`). -/
def stackRead (s : HttpDownloadState) (flr : FixedLengthReader)
    (res : ReadRes) : ReadRes × HttpDownloadState × FixedLengthReader :=
  let out := flr.Read res
  if out.1.err.isSome then (out.1, s, out.2)
  else
    let s1 := { s with left := s.left - out.1.n,
                       downloaded := s.downloaded + out.1.n }
    if s1.status ≠ Waiting then (out.1, s1, out.2)
    else (⟨0, some GoError.stopReading⟩, s1, out.2)

/-- Outcome of the legacy `io.Copy(s.file, s.respReader)` call. -/
inductive CopyOutcome
  | done (s : HttpDownloadState)
  | copyErr (s : HttpDownloadState) (e : GoError)
  | outOfFuel
deriving DecidableEq, Repr

/-- The legacy `io.Copy` loop over the reader stack.  The outermost
`PauseableReader` returns `(0, nil)` without touching the source while
`paused` is set, so `io.Copy` simply retries (the `fuel` bound makes that
spin explicit); an `io.EOF` from the stack ends the copy cleanly; any
other error is returned; otherwise the chunk is written (writes modelled
as succeeding) and the loop continues. -/
def copyLoop : Nat → HttpDownloadState → FixedLengthReader → List ReadRes →
    CopyOutcome
  | 0, _, _, _ => CopyOutcome.outOfFuel
  | fuel + 1, s, flr, body =>
    if s.paused then copyLoop fuel s flr body
    else
      match body with
      | [] => CopyOutcome.outOfFuel
      | res :: rest =>
        let out := stackRead s flr res
        match out.1.err with
        | some GoError.eof => CopyOutcome.done out.2.1
        | some e => CopyOutcome.copyErr out.2.1 e
        | none => copyLoop fuel out.2.1 out.2.2 rest

/-- Tail of the legacy `download` after `io.Copy` returns: an error goes
through `setError`; a clean end clears the error and sets `Completed`. -/
def finishCopy : CopyOutcome → Option HttpDownloadState
  | CopyOutcome.done s => some { s with err := none, status := Completed }
  | CopyOutcome.copyErr s e => some (setError s (some e))
  | CopyOutcome.outOfFuel => none

end Legacy

/-- The `HttpDownloadFile` a fresh `NewHttpDownloadFile` builds before any
request is made: `status: StatusQueued`, all other modelled fields at
their Go zero values. -/
def initialFile : HttpDownloadFile :=
  { Downloaded := 0, Total := 0, err := none, status := Status.queued,
    resumable := false }

/-- Atomic mutations the `downloads` package performs on one
`HttpDownloadFile`, each with the status its code path runs under:
* `negotiateFail`: `NewHttpDownloadFile` passes the HEAD-request error to
  `setError` on the freshly queued file;
* `negotiateOk`: the mutations of `parseResponse`'s successful branch
  (`Total`, `Downloaded = 0`, possibly `resumable`); reached only while
  the file has not been started (`_start` starts a file once: afterwards
  the task is `StatusStarted`/`StatusCompleted` and `Start` is a no-op,
  and `onFileCompleted` rescans only past completed files);
* `startOk`: `startDownloading`/`resumeDownloading` set `StatusStarted`;
* `readChunk`: the loop in `download` adds a chunk to `Downloaded`;
* `readEOF`: the loop sees `io.EOF` and sets `StatusCompleted`;
* `downloadErr`: `startDownload` passes a non-nil `download` return or a
  recovered panic to `setError`; the loop runs only in `StatusStarted`;
* `downloadClean`: `startDownload` passes `download`'s nil return to
  `setError`; `download` returns nil just after setting `StatusCompleted`
  (nothing else ends the file's single goroutine without an error, since
  no implemented caller changes a started file's status from outside). -/
inductive FileStep : HttpDownloadFile → HttpDownloadFile → Prop
  | negotiateFail (f : HttpDownloadFile) (e : GoError)
      (h : f.status = Status.queued) : FileStep f (f.setError (some e))
  | negotiateOk (f : HttpDownloadFile) (total : Int) (rs : Bool)
      (h : f.status = Status.queued) :
      FileStep f { f with Total := total, Downloaded := 0, resumable := rs }
  | startOk (f : HttpDownloadFile) (h : f.status = Status.queued) :
      FileStep f { f with status := Status.started }
  | readChunk (f : HttpDownloadFile) (n : Int)
      (h : f.status = Status.started) :
      FileStep f { f with Downloaded := f.Downloaded + n }
  | readEOF (f : HttpDownloadFile) (h : f.status = Status.started) :
      FileStep f { f with status := Status.completed }
  | downloadErr (f : HttpDownloadFile) (e : GoError)
      (h : f.status = Status.started) : FileStep f (f.setError (some e))
  | downloadClean (f : HttpDownloadFile) (h : f.status = Status.completed) :
      FileStep f (f.setError none)

/-- States of one `HttpDownloadFile` observable at any point of its
lifecycle: the fresh file, and everything reachable through the code's
mutations. -/
inductive ReachableFile : HttpDownloadFile → Prop
  | init : ReachableFile initialFile
  | step {f f' : HttpDownloadFile} :
      ReachableFile f → FileStep f f' → ReachableFile f'

/-- C1: every state of the `downloads` status enumeration (`queued`,
`started`, `paused`, `stopped`, `completed`, `failed`) has a distinct
underlying string value: distinct status names never share a value. -/
theorem status_values_all_distinct (s t : Status) (h : s ≠ t) :
    s.val ≠ t.val := by
  revert h; cases s <;> cases t <;> decide

/-- Witness for C1 at the pair the claim singles out:
`Paused` and `Completed` are distinct names with unequal values. -/
theorem status_values_all_distinct_witness :
    Status.paused ≠ Status.completed ∧
    Status.paused.val ≠ Status.completed.val :=
  ⟨by decide, status_values_all_distinct Status.paused Status.completed
    (by decide)⟩

/-- Helper for C2: each atomic mutation of the `downloads` package
preserves the status-error consistency of an `HttpDownloadFile`. -/
theorem fileStep_preserves (f f' : HttpDownloadFile) (hs : FileStep f f')
    (ih : f.status = Status.failed ↔ f.err ≠ none) :
    f'.status = Status.failed ↔ f'.err ≠ none := by
  have herrSome : ∀ (g : HttpDownloadFile) (e : GoError),
      (g.setError (some e)).status = Status.failed ↔
        (g.setError (some e)).err ≠ none := by
    intro g e; simp [HttpDownloadFile.setError]
  cases hs with
  | negotiateFail e hq => exact herrSome f e
  | negotiateOk total rs hq => simpa using ih
  | startOk hq =>
    have hnone : f.err = none := by
      by_contra hcon
      have hfail := ih.mpr hcon
      rw [hq] at hfail
      exact absurd hfail (by decide)
    simp [hnone]
  | readChunk n hst => simpa using ih
  | readEOF hst =>
    have hnone : f.err = none := by
      by_contra hcon
      have hfail := ih.mpr hcon
      rw [hst] at hfail
      exact absurd hfail (by decide)
    simp [hnone]
  | downloadErr e hst => exact herrSome f e
  | downloadClean hc =>
    rw [show f.setError none = { f with err := none } by
      simp [HttpDownloadFile.setError]]
    simp [hc]

/-- C2: at every observation point of an `HttpDownloadFile`'s lifecycle,
its status is `StatusFailed` exactly when a non-nil error is attached. -/
theorem failed_iff_error {f : HttpDownloadFile} (h : ReachableFile f) :
    f.status = Status.failed ↔ f.err ≠ none := by
  induction h with
  | init => simp [initialFile]
  | step _ hs ih => exact fileStep_preserves _ _ hs ih

/-- Witness for C2 at the freshly constructed file. -/
theorem failed_iff_error_witness :
    initialFile.status = Status.failed ↔ initialFile.err ≠ none :=
  failed_iff_error ReachableFile.init

/-- C3 fails on the code: a ten-byte file whose body arrives in one read
ends `StatusCompleted` with a nil error but with `Downloaded = 0 ≠ 10 =
Total` — the chunk that `FixedLengthReader` returns together with `io.EOF`
is discarded by the `errors.Is(err, io.EOF)` branch before the write and
the counter update. -/
theorem completed_with_missing_bytes :
    (HttpDownloadFile.startDownload
        { Downloaded := 0, Total := 10, err := none,
          status := Status.started, resumable := false }
        [⟨10, none⟩]) =
      { Downloaded := 0, Total := 10, err := none,
        status := Status.completed, resumable := false } := by decide

/-- C4 fails on the code: resuming a resumable file with `Downloaded =
100` does put offset 100 into the `Range` header, and a non-206 response
does surface as an error without touching the file, but a 206 response is
routed by `parseResponse`'s inverted status test into the full-response
branch, which resets `Downloaded` to 0 (and `Total` to the partial
body's `ContentLength`). -/
theorem resume_206_resets_downloaded :
    let f : HttpDownloadFile :=
      { Downloaded := 100, Total := 1000, err := none,
        status := Status.queued, resumable := true }
    let ok206 : HttpResponse :=
      { StatusCode := 206, ContentLength := 900,
        ContentRangeHeader := "bytes 100-999/1000",
        AcceptRangesHeader := "bytes" }
    let plain200 : HttpResponse :=
      { StatusCode := 200, ContentLength := 1000,
        ContentRangeHeader := "", AcceptRangesHeader := "bytes" }
    f.rangeRequestOffset = f.Downloaded ∧
    (f.resumeDownloading plain200).2 = some (GoError.httpStatus 200) ∧
    (f.resumeDownloading plain200).1 = f ∧
    (f.resumeDownloading ok206).2 = none ∧
    (f.resumeDownloading ok206).1.Downloaded = 0 := by decide

/-- C5 fails on the code: a task `[Completed, Queued, Queued]` whose
pending file's start returns an error ends with `dt.Status =
StatusCompleted` — not `StatusFailed` — though the error is recorded and
the later file stays `StatusQueued`. -/
theorem task_failure_marks_completed :
    let dt : HttpDownloadTask :=
      { Files := [{ Downloaded := 5, Total := 5, err := none,
                    status := Status.completed, resumable := false },
                  { Downloaded := 0, Total := 0, err := none,
                    status := Status.queued, resumable := false },
                  { Downloaded := 0, Total := 0, err := none,
                    status := Status.queued, resumable := false }],
        Status := Status.queued, Error := none, Path := "" }
    let resp : HttpResponse :=
      { StatusCode := 500, ContentLength := 0,
        ContentRangeHeader := "", AcceptRangesHeader := "" }
    (dt.Start resp).Status = Status.completed ∧
    (dt.Start resp).Status ≠ Status.failed ∧
    (dt.Start resp).Error = some (GoError.httpStatus 500) ∧
    (dt.Start resp).Files.map HttpDownloadFile.status =
      [Status.completed, Status.queued, Status.queued] := by decide

/-- C6 fails on the code: after `Stop()` on a started legacy transfer the
next pipeline read makes the progress callback return false, the stack
yields the distinguished `StopReadingErr` (indeed distinct from `io.EOF`
and `io.ErrUnexpectedEOF`), but `io.Copy` hands that sentinel to
`setError`, so the download ends with status `Error` and `StopReadingErr`
recorded as its error. -/
theorem stop_recorded_as_error :
    Legacy.finishCopy
        (Legacy.copyLoop 5
          (Legacy.Stop
            { status := Legacy.Started, err := none, size := 10,
              downloaded := 0, left := 10, paused := false })
          ⟨10⟩ [⟨4, none⟩]) =
      some { status := Legacy.ErrorSt, err := some GoError.stopReading,
             size := 10, downloaded := 4, left := 6, paused := false } ∧
    GoError.stopReading ≠ GoError.eof ∧
    GoError.stopReading ≠ GoError.unexpectedEOF := by decide

/-- C7 fails on the code at the wildcard input: `bytes 0-499/1234` and the
non-matching `not-a-range` behave as claimed, but `bytes */1234` parses to
`rangeEnd = 0`, not the claimed `-1` sentinel, because the named-group map
always contains every group and `strconv.Atoi("")`'s error is
discarded. -/
instance : DecidableEq (Except GoError ParseContentRangeResult) := fun a b =>
  match a, b with
  | Except.ok x, Except.ok y =>
    if h : x = y then Decidable.isTrue (by rw [h])
    else Decidable.isFalse (by simp [h])
  | Except.error x, Except.error y =>
    if h : x = y then Decidable.isTrue (by rw [h])
    else Decidable.isFalse (by simp [h])
  | Except.ok _, Except.error _ => Decidable.isFalse (by simp)
  | Except.error _, Except.ok _ => Decidable.isFalse (by simp)

theorem contentRange_wildcard_yields_zero :
    parseContentRange "bytes 0-499/1234" =
      Except.ok { rangeStart := 0, rangeEnd := 499, size := 1234 } ∧
    parseContentRange "bytes */1234" =
      Except.ok { rangeStart := 0, rangeEnd := 0, size := 1234 } ∧
    parseContentRange "bytes */1234" ≠
      Except.ok { rangeStart := 0, rangeEnd := -1, size := 1234 } ∧
    parseContentRange "not-a-range" =
      Except.error GoError.invalidContentRange := by decide

/-- Helper for C8: the total the `FixedLengthReader` reports across any
sequence of underlying reads never exceeds the configured length. -/
theorem flrDelivered_le (script : List ReadRes) :
    ∀ len : Int, 0 ≤ len → (∀ q ∈ script, 0 ≤ q.n) →
      flrDelivered len script ≤ len := by
  induction script with
  | nil => intro len h0 _; simpa [flrDelivered] using h0
  | cons res rest ih =>
    intro len h0 hn
    have hres : 0 ≤ res.n := hn res (List.mem_cons_self _ _)
    have hrest : ∀ q ∈ rest, 0 ≤ q.n := fun q hq =>
      hn q (List.mem_cons_of_mem _ hq)
    simp only [flrDelivered, FixedLengthReader.Read]
    by_cases hgt : res.n > len
    · simp only [hgt, if_pos]
      rw [sub_self]
      have := ih 0 le_rfl hrest
      omega
    · simp only [hgt, if_neg, not_false_iff]
      have h2 : 0 ≤ len - res.n := by omega
      have := ih (len - res.n) h2 hrest
      omega

/-- C8: the bound-length stage never reports more bytes delivered than its
configured remaining length `L` across all reads, and a read on which the
underlying source signals `io.EOF` while bytes are still expected
afterwards reports `io.ErrUnexpectedEOF`, not a clean end. -/
theorem fixedLengthReader_bound_and_truncation
    (L : Int) (script : List ReadRes) (r : FixedLengthReader)
    (res : ReadRes) (hL : 0 ≤ L) (hn : ∀ q ∈ script, 0 ≤ q.n)
    (heof : res.err = some GoError.eof)
    (hrem : 0 < (r.Read res).2.length) :
    flrDelivered L script ≤ L ∧
    (r.Read res).1.err = some GoError.unexpectedEOF := by
  refine ⟨flrDelivered_le script L hL hn, ?_⟩
  have hlen : 0 < r.length - (if res.n > r.length then r.length else res.n) :=
    hrem
  show (if r.length - (if res.n > r.length then r.length else res.n) ≤ 0 then
          some GoError.eof
        else if res.err = some GoError.eof ∧
            r.length - (if res.n > r.length then r.length else res.n) > 0 then
          some GoError.unexpectedEOF
        else res.err) = some GoError.unexpectedEOF
  rw [if_neg (by omega), if_pos ⟨heof, hlen⟩]

/-- Witness for C8: length 3, a 2-byte read then an `io.EOF`; and a reader
with one byte still expected that sees `io.EOF`. -/
theorem fixedLengthReader_bound_and_truncation_witness :
    (0 ≤ (3 : Int)) ∧
    (flrDelivered 3 [⟨2, none⟩, ⟨0, some GoError.eof⟩] ≤ 3 ∧
     (FixedLengthReader.Read ⟨1⟩ ⟨0, some GoError.eof⟩).1.err =
       some GoError.unexpectedEOF) :=
  ⟨by decide,
   fixedLengthReader_bound_and_truncation 3 [⟨2, none⟩, ⟨0, some GoError.eof⟩]
     ⟨1⟩ ⟨0, some GoError.eof⟩ (by decide) (by decide) rfl (by decide)⟩

/-- C9 fails on the code: `startDownloading` with a failing (500) response
returns the error but performs no `setError` — the file keeps status
`StatusQueued` (not `StatusFailed`) and a nil error. -/
theorem start_failure_leaves_file_queued :
    let resp : HttpResponse :=
      { StatusCode := 500, ContentLength := 0,
        ContentRangeHeader := "", AcceptRangesHeader := "" }
    (initialFile.startDownloading resp).2 = some (GoError.httpStatus 500) ∧
    (initialFile.startDownloading resp).1.status = Status.queued ∧
    (initialFile.startDownloading resp).1.status ≠ Status.failed ∧
    (initialFile.startDownloading resp).1.err = none := by decide

/-- C10: `HttpDownloadTask.GetPath` returns the task's stored error value,
not its `Path` field — in particular it is `none` whenever no error has
occurred, whatever `Path` holds — and its declared return type (`error`)
differs from the `GetPath() string` of the `DownloadTask` interface. -/
theorem getPath_returns_error_field (dt : HttpDownloadTask) (p : String)
    (h : dt.Error = none) :
    dt.GetPath = dt.Error ∧ ({ dt with Path := p }).GetPath = none ∧
    HttpDownloadTask.getPathReturnType ≠ DownloadTask.getPathReturnType := by
  refine ⟨rfl, ?_, by decide⟩
  simpa [HttpDownloadTask.GetPath] using h

/-- Witness for C10 at a concrete error-free task. -/
theorem getPath_returns_error_field_witness :
    ({ Files := [], Status := Status.queued, Error := none,
       Path := "downloads" } : HttpDownloadTask).Error = none ∧
    (({ Files := [], Status := Status.queued, Error := none,
        Path := "downloads" } : HttpDownloadTask).GetPath =
       ({ Files := [], Status := Status.queued, Error := none,
          Path := "downloads" } : HttpDownloadTask).Error ∧
     ({ ({ Files := [], Status := Status.queued, Error := none,
           Path := "downloads" } : HttpDownloadTask) with
        Path := "elsewhere" }).GetPath = none ∧
     HttpDownloadTask.getPathReturnType ≠ DownloadTask.getPathReturnType) :=
  ⟨rfl, getPath_returns_error_field _ "elsewhere" rfl⟩
